import Mathlib

/-!
# bk-cmdb: plat authorization bridge and service registration

A shallow embedding of `src/ac/extensions/plat.go` and
`src/common/backbone/register.go`.

* Go strings are byte sequences; a byte is a `Nat` (Go keeps it below 256,
  nothing here depends on that bound).
* A Go `(value, error)` result is a pair whose second component is
  `Option GoError`; a `nil` slice is the empty list.
* Calls to the collaborating services are recorded in an explicit call log
  that every operation threads through.
-/

namespace BkCmdb

/-! ## Go strings and the `strings` / `strconv` functions used by the code -/

/-- A Go string: its sequence of bytes. -/
abbrev GoString := List Nat

/-- The bytes of an ASCII literal. -/
def bytes (s : String) : GoString := s.toList.map Char.toNat

/-- Go error values that the embedded code creates or passes on. -/
inductive GoError where
  /-- an error value handed back by a collaborating service or helper -/
  | external (code : Nat)
  /-- Go `strconv.NumError` with `Err = ErrSyntax` -/
  | numSyntax (fn : String) (num : GoString)
  /-- Go `strconv.NumError` with `Err = ErrRange` -/
  | numRange (fn : String) (num : GoString)
  /-- Go `errors.New(msg)` or `fmt.Errorf` without an error operand -/
  | errorf (format : String) (arg : GoString)
  /-- Go `fmt.Errorf` whose format prints another error -/
  | wrap (format : String) (arg : GoString) (cause : GoError)
  deriving DecidableEq, Repr

/-- Go `strings.HasPrefix`: `len(s) >= len(p) && s[:len(p)] == p`. -/
def HasPrefix (s p : GoString) : Bool :=
  decide (p.length ≤ s.length) && decide (s.take p.length = p)

/-- The loop of `strings.Split` for a one-byte separator: `cur` holds the
bytes of the segment being read, most recent first. -/
def splitLoop (sep : Nat) : GoString → GoString → List GoString
  | [], cur => [cur.reverse]
  | c :: cs, cur =>
    if c = sep then cur.reverse :: splitLoop sep cs [] else splitLoop sep cs (c :: cur)

/-- Go `strings.Split(s, sep)` for a one-byte separator. -/
def Split (s : GoString) (sep : Nat) : List GoString := splitLoop sep s []

/-- Largest `uint64`. -/
def maxUint64 : Nat := 2 ^ 64 - 1

/-- Go `strconv.lower`: the byte with bit `0x20` set (`c | 32`). -/
def lower (c : Nat) : Nat := c ||| 32

/-- The digit loop of `strconv.ParseUint(s, 10, 64)`; `n` is the `uint64`
accumulator and `s0` the original argument, kept for the error value.
The underscore case needs `base == 0` and is absent for base 10. -/
def parseUintLoop (s0 : GoString) : GoString → Nat → Nat × Option GoError
  | [], n => (n, none)
  | c :: cs, n =>
    let d : Option Nat :=
      if 48 ≤ c ∧ c ≤ 57 then some (c - 48)
      else if 97 ≤ lower c ∧ lower c ≤ 122 then some (lower c - 97 + 10)
      else none
    match d with
    | none => (0, some (GoError.numSyntax "ParseUint" s0))
    | some d =>
      if d ≥ 10 then (0, some (GoError.numSyntax "ParseUint" s0))
      else if n ≥ maxUint64 / 10 + 1 then (maxUint64, some (GoError.numRange "ParseUint" s0))
      else
        let n := (n * 10) % 2 ^ 64
        let n1 := (n + d) % 2 ^ 64
        if n1 < n ∨ n1 > maxUint64 then (maxUint64, some (GoError.numRange "ParseUint" s0))
        else parseUintLoop s0 cs n1

/-- Go `strconv.ParseUint(s, 10, 64)`. -/
def ParseUint (s : GoString) : Nat × Option GoError :=
  if s = [] then (0, some (GoError.numSyntax "ParseUint" s))
  else parseUintLoop s s 0

/-- Conversion to `int64` with wrap-around. -/
def toInt64 (x : Int) : Int := (x + 2 ^ 63) % 2 ^ 64 - 2 ^ 63

/-- Go `strconv.ParseInt(s, 10, 64)`. -/
def ParseInt (s : GoString) : Int × Option GoError :=
  match s with
  | [] => (0, some (GoError.numSyntax "ParseInt" s))
  | c :: rest =>
    let sign : Bool × GoString :=
      if c = 43 then (false, rest) else if c = 45 then (true, rest) else (false, s)
    let neg := sign.1
    let r := ParseUint sign.2
    let failed : Option GoError :=
      match r.2 with
      | some (GoError.numRange _ _) => none
      | some _ => some (GoError.numSyntax "ParseInt" s)
      | none => none
    match failed with
    | some e => (0, some e)
    | none =>
      let un := r.1
      let cutoff : Nat := 2 ^ 63
      if !neg ∧ un ≥ cutoff then ((cutoff : Int) - 1, some (GoError.numRange "ParseInt" s))
      else if neg ∧ un > cutoff then (-(cutoff : Int), some (GoError.numRange "ParseInt" s))
      else
        let n := toInt64 un
        (if neg then toInt64 (-n) else n, none)

/-- The digit loop of `strconv.formatBits` in base 10: the decimal digits of
`u` are put in front of `acc`, the least significant one first. -/
def formatBits : Nat → Nat → GoString → GoString
  | 0, _, acc => acc
  | fuel + 1, u, acc =>
    if u < 10 then (48 + u) :: acc
    else formatBits fuel (u / 10) ((48 + u % 10) :: acc)

/-- Decimal rendering of a natural number. -/
def formatUint (u : Nat) : GoString := formatBits (u + 1) u []

/-- Decimal rendering of an integer, as `strconv.FormatInt(i, 10)` prints
an `int64`: a minus sign for a negative value, then the digits of the
magnitude without leading zeros. -/
def FormatInt (i : Int) : GoString :=
  if i < 0 then 45 :: formatUint (-i).toNat else formatUint i.toNat


/-! ## What "a base-10 int64" means, stated without the parser -/

/-- A decimal digit byte, 48 to 57 (ASCII 0 to 9). -/
def isDigitByte (c : Nat) : Bool := decide (48 ≤ c ∧ c ≤ 57)

/-- The number written by a digit string, continuing from `n`. -/
def decimalFrom (n : Nat) (s : GoString) : Nat := s.foldl (fun n c => n * 10 + (c - 48)) n

/-- The number written by a digit string. -/
def decimalValue (s : GoString) : Nat := decimalFrom 0 s

/-- The sign and the digit part of a numeral: an optional leading `+` or `-`. -/
def splitSign : GoString → Bool × GoString
  | [] => (false, [])
  | c :: ds => if c = 43 then (false, ds) else if c = 45 then (true, ds) else (false, c :: ds)

/-- The value of `s` read as a base-10 int64: an optional sign, then one or
more decimal digits, the whole between `-2^63` and `2^63 - 1`; `none` for
any other string. -/
def base10Int64 (s : GoString) : Option Int :=
  let neg := (splitSign s).1
  let ds := (splitSign s).2
  if ds ≠ [] ∧ ds.all isDigitByte = true then
    let v : Int := if neg then -(decimalValue ds : Int) else (decimalValue ds : Int)
    if -(2 ^ 63 : Int) ≤ v ∧ v < 2 ^ 63 then some v else none
  else none

/-- The part of a resource ID that has to be a base-10 int64: for an ID with
the legacy prefix `plat:` the second `:`-separated segment, otherwise the
whole string. -/
def idSegment (resourceID : GoString) : GoString :=
  if HasPrefix resourceID (bytes "plat:") then (Split resourceID 58).getD 1 [] else resourceID

/-- The int64 a resource ID decodes to, `none` when it fails to decode. -/
def decodeResourceID (resourceID : GoString) : Option Int := base10Int64 (idSegment resourceID)

/-! ## Data model (`meta`, `metadata`, `common`, `types`) -/

/-- Request header: the two values the code reads from it,
`util.GetOwnerID` and `util.GetHTTPCCRequestID`. -/
structure Header where
  ownerID : GoString
  requestID : GoString
  deriving DecidableEq, Repr

/-- Go `util.GetOwnerID`. -/
def GetOwnerID (header : Header) : GoString := header.ownerID

/-- Modelled from the spec: the `meta.Action` constants are declared outside
the listed sources; the spec calls them the enum of requested operations. -/
inductive Action where
  | Create | Update | Delete | Find | FindMany
  deriving DecidableEq, Repr

/-- Modelled from the spec: the `meta.ResourceType` constants are declared
outside the listed sources; the code uses `meta.Plat` and `meta.Model`. -/
inductive ResourceType where
  | Model | Plat | Business | Host
  deriving DecidableEq, Repr

/-- Modelled from the spec: object family keys of `common`; the code uses
`common.BKInnerObjIDPlat` (the family key "plat"). -/
inductive ObjectKey where
  | BKInnerObjIDPlat | BKInnerObjIDHost | BKInnerObjIDApp
  deriving DecidableEq, Repr

/-- Modelled from the spec: field names of `common`; the code filters on
`common.BKSubAreaField`. -/
inductive FieldKey where
  | BKSubAreaField | BKAppIDField | BKHostIDField
  deriving DecidableEq, Repr

/-- Go `meta.Basic` (also `meta.Item`), the fields the code sets. -/
structure Basic where
  Type_ : ResourceType
  Action : Option Action
  Name : GoString
  InstanceID : Int
  deriving DecidableEq, Repr

/-- Go `meta.Item`, declared as `type Item Basic`. -/
abbrev Item := Basic

/-- Go `meta.ResourceAttribute`; `BusinessID` keeps its zero value here. -/
structure ResourceAttribute where
  Basic : Basic
  SupplierAccount : GoString
  BusinessID : Int
  Layers : List Item
  deriving DecidableEq, Repr

/-- Go `PlatSimplify`. -/
structure PlatSimplify where
  BKCloudIDField : Int
  BKCloudNameField : GoString
  deriving DecidableEq, Repr

/-- Go `metadata.Object`, the fields the code reads plus the family key. -/
structure Object where
  ID : Int
  ObjectID : GoString
  ObjectName : GoString
  deriving DecidableEq, Repr

/-- A raw record of the core-data service (`mapstr.MapStr`): keyed values. -/
abbrev RawRecord := List (GoString × GoString)

/-- Go `metadata.QueryCondition` as built by
`condition.CreateCondition().Field(f).In(ids).ToMapStr()`. -/
structure QueryCondition where
  field : FieldKey
  inValues : List Int
  deriving DecidableEq, Repr

/-- Go `meta.ListAuthorizedResourcesParam`. -/
structure ListAuthorizedResourcesParam where
  UserName : GoString
  BizID : Int
  ResourceType : ResourceType
  Action : Action
  deriving DecidableEq, Repr

/-- A call made to a collaborating service. -/
inductive Call where
  /-- core-data service, `CoreService().Instance().ReadInstance` -/
  | ReadInstance (header : Header) (obj : ObjectKey) (cond : QueryCondition)
  /-- core-data service, the model query behind `collectObjectsByObjectIDs` -/
  | collectObjects (header : Header) (bizID : Int) (objs : List ObjectKey)
  /-- policy-decision service, the verdict requested by `am.authorize` -/
  | authorize (header : Header) (bizID : Int) (resources : List ResourceAttribute)
  /-- policy-decision service, `AuthServer().ListAuthorizedResources` -/
  | ListAuthorizedResources (header : Header) (input : ListAuthorizedResourcesParam)
  deriving DecidableEq, Repr

/-- Whether a call goes to the policy-decision service. -/
def Call.isPolicy : Call → Bool
  | Call.authorize _ _ _ => true
  | Call.ListAuthorizedResources _ _ => true
  | _ => false

/-- The `AuthManager` with its collaborators, each a fixed function of the
arguments it receives. `Enabled`, `Parse`, `collectObjectsByObjectIDs` and
`authorize` are declared outside the listed sources and are parameters. -/
structure AuthManager where
  /-- Go `am.Enabled()` -/
  Enabled : Bool
  /-- Go `am.clientSet.CoreService().Instance().ReadInstance` -/
  ReadInstance : Header → ObjectKey → QueryCondition → Except GoError (List RawRecord)
  /-- Go `(*PlatSimplify).Parse` -/
  Parse : RawRecord → Except GoError PlatSimplify
  /-- Go `am.collectObjectsByObjectIDs` -/
  collectObjectsByObjectIDs : Header → Int → List ObjectKey → Except GoError (List Object)
  /-- Go `am.authorize`, the policy-decision verdict (`none` is success) -/
  authorize : Header → Int → List ResourceAttribute → Option GoError
  /-- Go `am.clientSet.AuthServer().ListAuthorizedResources` -/
  ListAuthorizedResources : Header → ListAuthorizedResourcesParam → Except GoError (List GoString)

/-! ## `plat.go` -/

/-- Modelled from the spec: `util.IntArrayUnique` is declared outside the
listed sources; the spec says the input IDs are deduplicated before
querying. The first occurrence of every ID is kept. -/
def IntArrayUnique (a : List Int) : List Int :=
  a.foldl (fun ret x => if x ∈ ret then ret else ret ++ [x]) []

/-- The record loop of `collectPlatByIDs` (lines 48-56): parse every raw
record, stop at the first failure. -/
def parsePlats (am : AuthManager) : List RawRecord → List PlatSimplify →
    List PlatSimplify × Option GoError
  | [], plats => (plats, none)
  | cls :: rest, plats =>
    match am.Parse cls with
    | Except.error err => ([], some (GoError.wrap "get plat by id failed, err: %+v" [] err))
    | Except.ok plat => parsePlats am rest (plats ++ [plat])

/-- Go `(*AuthManager).collectPlatByIDs`. -/
def collectPlatByIDs (am : AuthManager) (header : Header) (platIDs : List Int)
    (log : List Call) : (List PlatSimplify × Option GoError) × List Call :=
  let platIDs := IntArrayUnique platIDs
  let cond : QueryCondition := { field := FieldKey.BKSubAreaField, inValues := platIDs }
  let log := log ++ [Call.ReadInstance header ObjectKey.BKInnerObjIDPlat cond]
  match am.ReadInstance header ObjectKey.BKInnerObjIDPlat cond with
  | Except.error err => (([], some (GoError.wrap "get plats by id failed, err: %+v" [] err)), log)
  | Except.ok info => (parsePlats am info [], log)

/-- The resource loop of `MakeResourcesByPlat` (lines 76-96). -/
def makeResources (header : Header) (action : Action) (platModel : Object) :
    List PlatSimplify → List ResourceAttribute → List ResourceAttribute
  | [], resources => resources
  | plat :: rest, resources =>
    let resource : ResourceAttribute :=
      { Basic :=
          { Action := some action
            Type_ := ResourceType.Plat
            Name := plat.BKCloudNameField
            InstanceID := plat.BKCloudIDField }
        SupplierAccount := GetOwnerID header
        BusinessID := 0
        Layers :=
          [{ Type_ := ResourceType.Model
             Action := none
             Name := platModel.ObjectName
             InstanceID := platModel.ID }] }
    makeResources header action platModel rest (resources ++ [resource])

/-- Go `(*AuthManager).MakeResourcesByPlat`. -/
def MakeResourcesByPlat (am : AuthManager) (header : Header) (action : Action)
    (plats : List PlatSimplify) (log : List Call) :
    (List ResourceAttribute × Option GoError) × List Call :=
  let log := log ++ [Call.collectObjects header 0 [ObjectKey.BKInnerObjIDPlat]]
  match am.collectObjectsByObjectIDs header 0 [ObjectKey.BKInnerObjIDPlat] with
  | Except.error err => (([], some (GoError.wrap "get plat model failed, err: %+v" [] err)), log)
  | Except.ok platModels =>
    match platModels with
    | [] => (([], some (GoError.errorf "get plat model failed, not found" [])), log)
    | platModel :: _ => ((makeResources header action platModel plats [], none), log)

/-- Go `(*AuthManager).AuthorizeByPlat`. -/
def AuthorizeByPlat (am : AuthManager) (header : Header) (action : Action)
    (plats : List PlatSimplify) (log : List Call) : Option GoError × List Call :=
  if !am.Enabled then (none, log)
  else
    match MakeResourcesByPlat am header action plats log with
    | ((_, some err), log) => (some (GoError.wrap "MakeResourcesByPlat failed, err: %s" [] err), log)
    | ((resources, none), log) =>
      (am.authorize header 0 resources, log ++ [Call.authorize header 0 resources])

/-- Go `(*AuthManager).AuthorizeByPlatIDs`. -/
def AuthorizeByPlatIDs (am : AuthManager) (header : Header) (action : Action)
    (platIDs : List Int) (log : List Call) : Option GoError × List Call :=
  if !am.Enabled then (none, log)
  else
    match collectPlatByIDs am header platIDs log with
    | ((_, some err), log) => (some (GoError.wrap "get plat by id failed, err: %+d" [] err), log)
    | ((plats, none), log) => AuthorizeByPlat am header action plats log

/-- The decoding loop of `ListAuthorizedPlatIDs` (lines 141-161). -/
def parsePlatIDs : List GoString → List Int → List Int × Option GoError
  | [], authorizedPlatIDs => (authorizedPlatIDs, none)
  | resourceID :: rest, authorizedPlatIDs =>
    if HasPrefix resourceID (bytes "plat:") then
      match Split resourceID 58 with
      | _ :: part1 :: _ =>
        match ParseInt part1 with
        | (_, some err) =>
          ([], some (GoError.wrap
            "parse platID from iamResource failed, iamResourceID: %s, err: %+v" resourceID err))
        | (platID, none) => parsePlatIDs rest (authorizedPlatIDs ++ [platID])
      | _ =>
        ([], some (GoError.errorf
          "parse platID from iamResource failed,  iamResourceID: %s, format error" resourceID))
    else
      match ParseInt resourceID with
      | (_, some err) =>
        ([], some (GoError.wrap
          "parse platID from iamResource failed, iamResourceID: %s, err: %+v" resourceID err))
      | (platID, none) => parsePlatIDs rest (authorizedPlatIDs ++ [platID])

/-- Go `(*AuthManager).ListAuthorizedPlatIDs`. -/
def ListAuthorizedPlatIDs (am : AuthManager) (header : Header) (username : GoString)
    (log : List Call) : (List Int × Option GoError) × List Call :=
  let input : ListAuthorizedResourcesParam :=
    { UserName := username
      BizID := 0
      ResourceType := ResourceType.Plat
      Action := Action.FindMany }
  let log := log ++ [Call.ListAuthorizedResources header input]
  match am.ListAuthorizedResources header input with
  | Except.error err => (([], some err), log)
  | Except.ok authorizedResources => (parsePlatIDs authorizedResources [], log)

/-! ## `register.go` -/

/-- Go `types.ServerInfo`; the type is declared outside the listed sources,
the code reads `RegisterIP` and serialises the whole value. -/
structure ServerInfo where
  IP : GoString
  Port : Nat
  RegisterIP : GoString
  HostName : GoString
  Scheme : GoString
  Version : GoString
  Pid : Int
  deriving DecidableEq, Repr

/-- A call made to the coordination-service client. -/
inductive ClientCall where
  | RegisterAndWatchService (path : GoString) (data : GoString)
  | Ping
  | Cancel
  | ClearRegisterPath
  deriving DecidableEq, Repr

/-- Go `serviceRegister`: the coordination-service client, with the
serialiser `json.Marshal` it is used with. -/
structure serviceRegister where
  /-- Go `json.Marshal` on a `types.ServerInfo` -/
  Marshal : ServerInfo → Except GoError GoString
  /-- Go `s.client.RegisterAndWatchService` -/
  RegisterAndWatchService : GoString → GoString → Option GoError

/-- Go `(*serviceRegister).Register`. -/
def Register (s : serviceRegister) (path : GoString) (c : ServerInfo)
    (log : List ClientCall) : Option GoError × List ClientCall :=
  if c.RegisterIP = bytes "0.0.0.0" then
    (some (GoError.errorf "register ip can not be 0.0.0.0" []), log)
  else
    match s.Marshal c with
    | Except.error err => (some err, log)
    | Except.ok js =>
      (s.RegisterAndWatchService path js, log ++ [ClientCall.RegisterAndWatchService path js])

/-! ## Concrete collaborators used to run the code on examples -/

/-- Key of the ID field in a raw plat record. -/
def cloudIDKey : GoString := bytes "bk_cloud_id"

/-- Key of the name field in a raw plat record. -/
def cloudNameKey : GoString := bytes "bk_cloud_name"

/-- A record parser: reads the ID and the name out of a raw record. -/
def demoParse (cls : RawRecord) : Except GoError PlatSimplify :=
  match cls.lookup cloudIDKey, cls.lookup cloudNameKey with
  | some i, some n =>
    match ParseInt i with
    | (v, none) => Except.ok { BKCloudIDField := v, BKCloudNameField := n }
    | (_, some err) => Except.error err
  | _, _ => Except.error (GoError.external 1)

/-- A core-data store holding `table`: a query returns, in table order, the
records whose ID is in the filter. -/
def demoRead (table : List RawRecord) (_ : Header) (_ : ObjectKey) (cond : QueryCondition) :
    Except GoError (List RawRecord) :=
  Except.ok (table.filter fun cls =>
    match cls.lookup cloudIDKey with
    | some i => decide ((ParseInt i).1 ∈ cond.inValues)
    | none => false)

/-- An `AuthManager` over a store `table`, a model list `models`, a fixed
verdict and a fixed answer to the listing query. -/
def demoManager (enabled : Bool) (table : List RawRecord) (models : List Object)
    (verdict : Option GoError) (listed : List GoString) : AuthManager :=
  { Enabled := enabled
    ReadInstance := demoRead table
    Parse := demoParse
    collectObjectsByObjectIDs := fun _ _ _ => Except.ok models
    authorize := fun _ _ _ => verdict
    ListAuthorizedResources := fun _ _ => Except.ok listed }

/-- A request header of tenant `acme`. -/
def demoHeader : Header := { ownerID := bytes "acme", requestID := bytes "rid-1" }

/-- The raw record of plat 1. -/
def rawPlat1 : RawRecord := [(cloudIDKey, bytes "1"), (cloudNameKey, bytes "p1")]

/-- The raw record of plat 2. -/
def rawPlat2 : RawRecord := [(cloudIDKey, bytes "2"), (cloudNameKey, bytes "p2")]

/-- Plat 1. -/
def plat1 : PlatSimplify := { BKCloudIDField := 1, BKCloudNameField := bytes "p1" }

/-- Plat 2. -/
def plat2 : PlatSimplify := { BKCloudIDField := 2, BKCloudNameField := bytes "p2" }

/-- The plat model. -/
def cloudAreaModel : Object :=
  { ID := 9, ObjectID := bytes "plat", ObjectName := bytes "Cloud Area" }

/-- The query that `ListAuthorizedPlatIDs` sends for `username`. -/
def listInput (username : GoString) : ListAuthorizedResourcesParam :=
  { UserName := username
    BizID := 0
    ResourceType := ResourceType.Plat
    Action := Action.FindMany }

/-- A server info advertising `ip`. -/
def demoServer (ip : GoString) : ServerInfo :=
  { IP := ip
    Port := 8080
    RegisterIP := ip
    HostName := bytes "host-a"
    Scheme := bytes "http"
    Version := bytes "v3"
    Pid := 7 }

/-- A registration adapter whose serialiser writes the register IP and whose
client accepts every registration. -/
def demoRegister : serviceRegister :=
  { Marshal := fun c => Except.ok c.RegisterIP
    RegisterAndWatchService := fun _ _ => none }

/-! ## Lemmas on `strconv` -/

theorem decimalFrom_cons (n c : Nat) (s : GoString) :
    decimalFrom n (c :: s) = decimalFrom (n * 10 + (c - 48)) s := rfl

theorem le_decimalFrom (s : GoString) : ∀ n, n ≤ decimalFrom n s := by
  induction s with
  | nil => intro n; exact Nat.le_refl n
  | cons c cs ih =>
    intro n
    rw [decimalFrom_cons]
    have h := ih (n * 10 + (c - 48))
    omega

/-- On a digit string the loop of `ParseUint` returns the number written,
or the range error when that number exceeds `maxUint64`. -/
theorem parseUintLoop_digits (s0 : GoString) (s : GoString) :
    ∀ n, n ≤ maxUint64 → s.all isDigitByte = true →
      parseUintLoop s0 s n =
        if decimalFrom n s ≤ maxUint64 then (decimalFrom n s, none)
        else (maxUint64, some (GoError.numRange "ParseUint" s0)) := by
  induction s with
  | nil =>
    intro n hn _
    simp [parseUintLoop, decimalFrom, hn]
  | cons c cs ih =>
    intro n hn hall
    simp only [List.all_cons, Bool.and_eq_true, isDigitByte, decide_eq_true_eq] at hall
    obtain ⟨⟨hc1, hc2⟩, hcs⟩ := hall
    have hmono := le_decimalFrom cs (n * 10 + (c - 48))
    rw [decimalFrom_cons]
    simp only [maxUint64] at hn hmono ⊢
    unfold parseUintLoop
    simp only [maxUint64, hc1, hc2, and_self, if_true]
    have hd : ¬ (c - 48 ≥ 10) := by omega
    simp only [hd, if_false]
    by_cases hcut : n ≥ (2 ^ 64 - 1) / 10 + 1
    · have : ¬ (decimalFrom (n * 10 + (c - 48)) cs ≤ 2 ^ 64 - 1) := by omega
      simp only [hcut, if_true, this, if_false]
    · simp only [hcut, if_false]
      by_cases hov : n * 10 + (c - 48) ≤ 2 ^ 64 - 1
      · have h1 : n * 10 % 2 ^ 64 = n * 10 := Nat.mod_eq_of_lt (by omega)
        have h2 : (n * 10 + (c - 48)) % 2 ^ 64 = n * 10 + (c - 48) := Nat.mod_eq_of_lt (by omega)
        have h3 : ¬ (n * 10 + (c - 48) < n * 10 ∨ n * 10 + (c - 48) > 2 ^ 64 - 1) := by omega
        rw [h1, h2]
        simp only [h3, if_false]
        have := ih (n * 10 + (c - 48)) (by simp only [maxUint64]; omega) hcs
        simpa only [maxUint64] using this
      · have h1 : n * 10 % 2 ^ 64 = n * 10 := Nat.mod_eq_of_lt (by omega)
        have h3 : (n * 10 + (c - 48)) % 2 ^ 64 < n * 10 ∨
            (n * 10 + (c - 48)) % 2 ^ 64 > 2 ^ 64 - 1 := by omega
        have : ¬ (decimalFrom (n * 10 + (c - 48)) cs ≤ 2 ^ 64 - 1) := by omega
        rw [h1]
        simp only [h3, if_true, this, if_false]

/-- Whatever the input, the loop of `ParseUint` ends with no error, with the
syntax error and value 0, or with the range error and value `maxUint64`. -/
theorem parseUintLoop_shape (s0 : GoString) (s : GoString) :
    ∀ n, (parseUintLoop s0 s n).2 = none ∨
      parseUintLoop s0 s n = (0, some (GoError.numSyntax "ParseUint" s0)) ∨
      parseUintLoop s0 s n = (maxUint64, some (GoError.numRange "ParseUint" s0)) := by
  induction s with
  | nil => intro n; left; rfl
  | cons c cs ih =>
    intro n
    unfold parseUintLoop
    by_cases hc : 48 ≤ c ∧ c ≤ 57
    · simp only [hc, and_self, if_true]
      by_cases hd : c - 48 ≥ 10
      · simp only [hd, if_true]; right; left; trivial
      · simp only [hd, if_false]
        by_cases hcut : n ≥ maxUint64 / 10 + 1
        · simp only [hcut, if_true]; right; right; trivial
        · simp only [hcut, if_false]
          split
          · right; right; rfl
          · exact ih _
    · simp only [hc, if_false]
      by_cases hl : 97 ≤ lower c ∧ lower c ≤ 122
      · simp only [hl, and_self, if_true]
        have : lower c - 97 + 10 ≥ 10 := by omega
        simp only [this, if_true]; right; left; trivial
      · simp only [hl, if_false]; right; left; trivial

/-- A string with a byte that is no digit makes the loop of `ParseUint` fail. -/
theorem parseUintLoop_nondigit (s0 : GoString) (s : GoString) :
    ∀ n, s.all isDigitByte = false → (parseUintLoop s0 s n).2 ≠ none := by
  induction s with
  | nil => intro n h; simp at h
  | cons c cs ih =>
    intro n hall
    unfold parseUintLoop
    by_cases hc : 48 ≤ c ∧ c ≤ 57
    · have hcs : cs.all isDigitByte = false := by
        have hd : isDigitByte c = true := by simp [isDigitByte, hc]
        simpa [List.all_cons, hd] using hall
      simp only [hc, and_self, if_true]
      split
      · simp
      · split
        · simp
        · split
          · simp
          · exact ih _ hcs
    · simp only [hc, if_false]
      by_cases hl : 97 ≤ lower c ∧ lower c ≤ 122
      · simp only [hl, and_self, if_true]
        have : lower c - 97 + 10 ≥ 10 := by omega
        simp [this]
      · simp only [hl, if_false]
        simp

/-- The three ways `ParseUint` can end, by what its argument looks like. -/
theorem ParseUint_cases (s : GoString) :
    (s ≠ [] ∧ s.all isDigitByte = true ∧ decimalValue s ≤ maxUint64 ∧
        ParseUint s = (decimalValue s, none)) ∨
    (s ≠ [] ∧ s.all isDigitByte = true ∧ maxUint64 < decimalValue s ∧
        ParseUint s = (maxUint64, some (GoError.numRange "ParseUint" s))) ∨
    (¬ (s ≠ [] ∧ s.all isDigitByte = true) ∧
        (ParseUint s = (0, some (GoError.numSyntax "ParseUint" s)) ∨
         ParseUint s = (maxUint64, some (GoError.numRange "ParseUint" s)))) := by
  by_cases hs : s = []
  · right; right
    subst hs
    exact ⟨by simp, Or.inl rfl⟩
  · have hP : ParseUint s = parseUintLoop s s 0 := by simp [ParseUint, hs]
    by_cases hall : s.all isDigitByte = true
    · have h := parseUintLoop_digits s s 0 (Nat.zero_le _) hall
      by_cases hv : decimalValue s ≤ maxUint64
      · left
        refine ⟨hs, hall, hv, ?_⟩
        rw [hP, h]
        simp only [decimalValue] at hv
        simp only [hv, if_true, decimalValue]
      · right; left
        refine ⟨hs, hall, Nat.lt_of_not_le hv, ?_⟩
        rw [hP, h]
        simp only [decimalValue] at hv
        simp only [hv, if_false]
    · right; right
      refine ⟨fun h => hall h.2, ?_⟩
      have hfalse : s.all isDigitByte = false := by simpa using hall
      have hne := parseUintLoop_nondigit s s 0 hfalse
      rcases parseUintLoop_shape s s 0 with h | h | h
      · exact absurd h hne
      · left; rw [hP, h]
      · right; rw [hP, h]

/-- How `ParseInt` finishes once the sign is taken off. -/
theorem ParseInt_cons (c : Nat) (rest : GoString) :
    ParseInt (c :: rest) =
      (let neg := (splitSign (c :: rest)).1
       let r := ParseUint (splitSign (c :: rest)).2
       let failed : Option GoError :=
         match r.2 with
         | some (GoError.numRange _ _) => none
         | some _ => some (GoError.numSyntax "ParseInt" (c :: rest))
         | none => none
       match failed with
       | some e => (0, some e)
       | none =>
         let un := r.1
         let cutoff : Nat := 2 ^ 63
         if !neg ∧ un ≥ cutoff then
           ((cutoff : Int) - 1, some (GoError.numRange "ParseInt" (c :: rest)))
         else if neg ∧ un > cutoff then
           (-(cutoff : Int), some (GoError.numRange "ParseInt" (c :: rest)))
         else
           let n := toInt64 un
           (if neg then toInt64 (-n) else n, none)) := by
  simp only [ParseInt, splitSign]

/-- Go `ParseInt` succeeds exactly on the base-10 int64 numerals, with their value. -/
theorem ParseInt_spec (s : GoString) :
    (∀ v, base10Int64 s = some v → ParseInt s = (v, none)) ∧
    (base10Int64 s = none → (ParseInt s).2 ≠ none) := by
  cases s with
  | nil => simp [base10Int64, splitSign, ParseInt]
  | cons c rest =>
    rw [ParseInt_cons]
    simp only [base10Int64]
    generalize (splitSign (c :: rest)).1 = neg
    generalize (splitSign (c :: rest)).2 = body
    rcases ParseUint_cases body with ⟨h1, h2, h3, h4⟩ | ⟨h1, h2, h3, h4⟩ | ⟨h1, h4⟩
    · simp only [h4, h1, h2, ne_eq, not_false_eq_true, and_self, if_true]
      simp only [maxUint64] at h3
      generalize decimalValue body = u at h3 ⊢
      cases neg
      · simp only [Bool.not_false, true_and, Bool.false_eq_true, false_and, if_false, toInt64]
        split_ifs with ha hb
        all_goals (refine ⟨fun v hv => ?_, fun hn => ?_⟩)
        all_goals first
          | (exfalso; omega)
          | exact hv.elim
          | exact hn.elim
          | (simp only [Option.some.injEq] at hv
             refine Prod.ext ?_ rfl
             show _ = v
             omega)
          | exact fun h => h
      · simp only [Bool.not_true, Bool.false_eq_true, false_and, true_and, if_false, if_true,
          toInt64]
        split_ifs with ha hb
        all_goals (refine ⟨fun v hv => ?_, fun hn => ?_⟩)
        all_goals first
          | (exfalso; omega)
          | exact hv.elim
          | exact hn.elim
          | (simp only [Option.some.injEq] at hv
             refine Prod.ext ?_ rfl
             show _ = v
             omega)
          | exact fun h => h
    · simp only [h4, h1, h2, ne_eq, not_false_eq_true, and_self, if_true]
      simp only [maxUint64] at h3 ⊢
      generalize decimalValue body = u at h3 ⊢
      cases neg
      · simp only [Bool.not_false, true_and, Bool.false_eq_true, false_and, if_false, toInt64]
        split_ifs with ha hb
        all_goals (refine ⟨fun v hv => ?_, fun hn => ?_⟩)
        all_goals first
          | (exfalso; omega)
          | exact hv.elim
          | exact hn.elim
          | exact fun h => h
      · simp only [Bool.not_true, Bool.false_eq_true, false_and, true_and, if_false, if_true,
          toInt64]
        split_ifs with ha hb
        all_goals (refine ⟨fun v hv => ?_, fun hn => ?_⟩)
        all_goals first
          | (exfalso; omega)
          | exact hv.elim
          | exact hn.elim
          | exact fun h => h
    · simp only [h1, if_false]
      rcases h4 with h4 | h4
      · simp [h4]
      · simp only [h4, maxUint64]
        cases neg <;> simp

/-! ## Lemmas on the decimal rendering -/

theorem formatBits_all (fuel : Nat) :
    ∀ u acc, acc.all isDigitByte = true → (formatBits fuel u acc).all isDigitByte = true := by
  induction fuel with
  | zero => intro u acc h; simpa [formatBits] using h
  | succ fuel ih =>
    intro u acc h
    unfold formatBits
    split
    · rename_i hu
      have : isDigitByte (48 + u) = true := by simp [isDigitByte]; omega
      simp only [List.all_cons, this, h, Bool.and_self]
    · apply ih
      have : isDigitByte (48 + u % 10) = true := by simp [isDigitByte]; omega
      simp only [List.all_cons, this, h, Bool.and_self]

theorem formatBits_ne_nil (fuel : Nat) :
    ∀ u acc, u < fuel → formatBits fuel u acc ≠ [] := by
  induction fuel with
  | zero => intro u acc h; omega
  | succ fuel ih =>
    intro u acc h
    unfold formatBits
    split
    · simp
    · apply ih
      omega

theorem decimalFrom_formatBits (fuel : Nat) :
    ∀ u acc, u < fuel → decimalFrom 0 (formatBits fuel u acc) = decimalFrom u acc := by
  induction fuel with
  | zero => intro u acc h; omega
  | succ fuel ih =>
    intro u acc h
    unfold formatBits
    split
    · rw [decimalFrom_cons]
      congr 1
      omega
    · rw [ih _ _ (by omega), decimalFrom_cons]
      congr 1
      omega

theorem formatUint_all (u : Nat) : (formatUint u).all isDigitByte = true :=
  formatBits_all _ _ _ rfl

theorem formatUint_ne_nil (u : Nat) : formatUint u ≠ [] :=
  formatBits_ne_nil _ _ _ (Nat.lt_succ_self u)

theorem decimalValue_formatUint (u : Nat) : decimalValue (formatUint u) = u :=
  decimalFrom_formatBits _ _ _ (Nat.lt_succ_self u)

/-- A non-empty digit string carries no sign. -/
theorem splitSign_digits (s : GoString) (hall : s.all isDigitByte = true) :
    splitSign s = (false, s) := by
  cases s with
  | nil => rfl
  | cons c cs =>
    simp only [List.all_cons, Bool.and_eq_true, isDigitByte, decide_eq_true_eq] at hall
    have h1 : c ≠ 43 := by omega
    have h2 : c ≠ 45 := by omega
    simp [splitSign, h1, h2]

/-- The decimal rendering of an int64 is a base-10 int64 with the same value. -/
theorem base10Int64_FormatInt (n : Int) (hlo : -(2 ^ 63 : Int) ≤ n) (hhi : n < 2 ^ 63) :
    base10Int64 (FormatInt n) = some n := by
  unfold FormatInt
  by_cases hneg : n < 0
  · simp only [hneg, if_true, base10Int64, splitSign]
    simp only [show ¬ ((45 : Nat) = 43) by decide, if_false, if_true, formatUint_ne_nil,
      formatUint_all, ne_eq, not_false_eq_true, and_self, decimalValue_formatUint]
    have hcast : ((-n).toNat : Int) = -n := Int.toNat_of_nonneg (by omega)
    rw [hcast]
    have hr : -(2 ^ 63 : Int) ≤ n ∧ n < 2 ^ 63 := ⟨hlo, hhi⟩
    simp only [neg_neg, hr, and_self, if_true]
  · simp only [hneg, if_false, base10Int64, splitSign_digits _ (formatUint_all _),
      formatUint_ne_nil, formatUint_all, ne_eq, not_false_eq_true, and_self, if_true,
      decimalValue_formatUint, Bool.false_eq_true]
    have hcast : (n.toNat : Int) = n := Int.toNat_of_nonneg (by omega)
    rw [hcast]
    have hr : -(2 ^ 63 : Int) ≤ n ∧ n < 2 ^ 63 := ⟨hlo, hhi⟩
    simp only [hr, and_self, if_true]

/-- Round trip: `ParseInt` reads back the rendering of every int64. -/
theorem ParseInt_FormatInt (n : Int) (hlo : -(2 ^ 63 : Int) ≤ n) (hhi : n < 2 ^ 63) :
    ParseInt (FormatInt n) = (n, none) :=
  (ParseInt_spec (FormatInt n)).1 n (base10Int64_FormatInt n hlo hhi)

/-- Every byte of a rendering is a digit or the minus sign. -/
theorem FormatInt_bytes (n : Int) : ∀ c ∈ FormatInt n, c = 45 ∨ (48 ≤ c ∧ c ≤ 57) := by
  intro c hc
  have hall := fun u => List.all_eq_true.mp (formatUint_all u)
  unfold FormatInt at hc
  split at hc
  · rcases List.mem_cons.mp hc with h | h
    · left; exact h
    · right; simpa [isDigitByte] using hall _ c h
  · right; simpa [isDigitByte] using hall _ c hc

theorem FormatInt_ne_nil (n : Int) : FormatInt n ≠ [] := by
  unfold FormatInt
  split
  · simp
  · exact formatUint_ne_nil _

/-! ## Lemmas on `strings.Split` and `strings.HasPrefix` -/

theorem splitLoop_ne_nil (sep : Nat) (s : GoString) : ∀ cur, splitLoop sep s cur ≠ [] := by
  induction s with
  | nil => intro cur; simp [splitLoop]
  | cons c cs ih =>
    intro cur
    unfold splitLoop
    split
    · simp
    · exact ih _

theorem splitLoop_no_sep (sep : Nat) (s : GoString) :
    ∀ cur, sep ∉ s → splitLoop sep s cur = [cur.reverse ++ s] := by
  induction s with
  | nil => intro cur _; simp [splitLoop]
  | cons c cs ih =>
    intro cur h
    have hc : c ≠ sep := fun e => h (e ▸ List.mem_cons_self _ _)
    have hcs : sep ∉ cs := fun e => h (List.mem_cons_of_mem _ e)
    unfold splitLoop
    simp only [hc, if_false]
    rw [ih _ hcs]
    simp

theorem splitLoop_sep (sep : Nat) (seg rest : GoString) :
    ∀ cur, sep ∉ seg →
      splitLoop sep (seg ++ sep :: rest) cur = (cur.reverse ++ seg) :: splitLoop sep rest [] := by
  induction seg with
  | nil => intro cur _; simp [splitLoop]
  | cons c cs ih =>
    intro cur h
    have hc : c ≠ sep := fun e => h (e ▸ List.mem_cons_self _ _)
    have hcs : sep ∉ cs := fun e => h (List.mem_cons_of_mem _ e)
    simp only [List.cons_append]
    rw [splitLoop]
    simp only [hc, if_false]
    rw [ih _ hcs]
    simp

theorem bytes_plat_colon : bytes "plat:" = [112, 108, 97, 116, 58] := by decide

theorem bytes_plat : bytes "plat" = [112, 108, 97, 116] := by decide

theorem HasPrefix_append (p t : GoString) : HasPrefix (p ++ t) p = true := by
  simp [HasPrefix]

theorem HasPrefix_elim (s p : GoString) (h : HasPrefix s p = true) : ∃ t, s = p ++ t := by
  simp only [HasPrefix, Bool.and_eq_true, decide_eq_true_eq] at h
  refine ⟨s.drop p.length, ?_⟩
  conv_lhs => rw [← List.take_append_drop p.length s]
  rw [h.2]

/-- Splitting an ID with the legacy prefix: the first segment is `plat`, the
rest is the split of what follows the prefix. -/
theorem Split_plat (t : GoString) :
    Split (bytes "plat:" ++ t) 58 = bytes "plat" :: Split t 58 := by
  rw [bytes_plat_colon, bytes_plat]
  simp [Split, splitLoop]

theorem idSegment_plat (t : GoString) :
    idSegment (bytes "plat:" ++ t) = (Split t 58).getD 0 [] := by
  simp only [idSegment, HasPrefix_append, if_true, Split_plat]
  rfl

theorem idSegment_bare (r : GoString) (h : HasPrefix r (bytes "plat:") = false) :
    idSegment r = r := by
  simp [idSegment, h]

/-- A rendering never starts with the legacy prefix. -/
theorem HasPrefix_FormatInt (n : Int) : HasPrefix (FormatInt n) (bytes "plat:") = false := by
  cases h : HasPrefix (FormatInt n) (bytes "plat:") with
  | false => rfl
  | true =>
    obtain ⟨t, ht⟩ := HasPrefix_elim _ _ h
    rw [bytes_plat_colon] at ht
    have := FormatInt_bytes n 112 (by rw [ht]; simp)
    omega

/-- A rendering contains no `:`. -/
theorem colon_not_mem_FormatInt (n : Int) : 58 ∉ FormatInt n := by
  intro h
  have := FormatInt_bytes n 58 h
  omega

/-! ## Lemmas on the decoding loop of `ListAuthorizedPlatIDs` -/

/-- One turn of the loop on an ID that decodes. -/
theorem parsePlatIDs_cons_some (r : GoString) (rest : List GoString) (acc : List Int) (v : Int)
    (h : decodeResourceID r = some v) :
    parsePlatIDs (r :: rest) acc = parsePlatIDs rest (acc ++ [v]) := by
  rw [parsePlatIDs]
  by_cases hp : HasPrefix r (bytes "plat:") = true
  · obtain ⟨t, rfl⟩ := HasPrefix_elim _ _ hp
    simp only [decodeResourceID, idSegment_plat] at h
    simp only [hp, if_true, Split_plat]
    have hne := splitLoop_ne_nil 58 t []
    cases hs : Split t 58 with
    | nil => exact absurd hs hne
    | cons a b =>
      simp only [hs, List.getD_cons_zero] at h
      simp only [(ParseInt_spec a).1 v h]
  · have hp2 : HasPrefix r (bytes "plat:") = false := by simpa using hp
    simp only [decodeResourceID, idSegment_bare r hp2] at h
    simp only [hp2, Bool.false_eq_true, if_false, (ParseInt_spec r).1 v h]

/-- One turn of the loop on an ID that does not decode. -/
theorem parsePlatIDs_cons_none (r : GoString) (rest : List GoString) (acc : List Int)
    (h : decodeResourceID r = none) :
    ∃ e, parsePlatIDs (r :: rest) acc = ([], some e) := by
  rw [parsePlatIDs]
  by_cases hp : HasPrefix r (bytes "plat:") = true
  · obtain ⟨t, rfl⟩ := HasPrefix_elim _ _ hp
    simp only [decodeResourceID, idSegment_plat] at h
    simp only [hp, if_true, Split_plat]
    have hne := splitLoop_ne_nil 58 t []
    cases hs : Split t 58 with
    | nil => exact absurd hs hne
    | cons a b =>
      simp only [hs, List.getD_cons_zero] at h
      have hf := (ParseInt_spec a).2 h
      cases hr : ParseInt a with
      | mk x e =>
        cases e with
        | none => rw [hr] at hf; exact absurd rfl hf
        | some e => simp only [hr]; exact ⟨_, rfl⟩
  · have hp2 : HasPrefix r (bytes "plat:") = false := by simpa using hp
    simp only [decodeResourceID, idSegment_bare r hp2] at h
    simp only [hp2, Bool.false_eq_true, if_false]
    have hf := (ParseInt_spec r).2 h
    cases hr : ParseInt r with
    | mk x e =>
      cases e with
      | none => rw [hr] at hf; exact absurd rfl hf
      | some e => exact ⟨_, rfl⟩

/-- When every ID decodes the loop returns the decoded values after `acc`. -/
theorem parsePlatIDs_all (rs : List GoString) :
    ∀ acc, (∀ r ∈ rs, decodeResourceID r ≠ none) →
      parsePlatIDs rs acc = (acc ++ rs.filterMap decodeResourceID, none) := by
  induction rs with
  | nil => intro acc _; simp [parsePlatIDs]
  | cons r rest ih =>
    intro acc h
    cases hd : decodeResourceID r with
    | none => exact absurd hd (h r (List.mem_cons_self _ _))
    | some v =>
      rw [parsePlatIDs_cons_some r rest acc v hd,
        ih _ (fun x hx => h x (List.mem_cons_of_mem _ hx))]
      simp [List.filterMap_cons, hd]

/-- When some ID does not decode the loop returns an error and no ID. -/
theorem parsePlatIDs_some_none (rs : List GoString) :
    ∀ acc, (∃ r ∈ rs, decodeResourceID r = none) →
      ∃ e, parsePlatIDs rs acc = ([], some e) := by
  induction rs with
  | nil => intro acc h; obtain ⟨r, hr, _⟩ := h; simp at hr
  | cons r rest ih =>
    intro acc h
    cases hd : decodeResourceID r with
    | none => exact parsePlatIDs_cons_none r rest acc hd
    | some v =>
      rw [parsePlatIDs_cons_some r rest acc v hd]
      apply ih
      obtain ⟨x, hx, hxn⟩ := h
      rcases List.mem_cons.mp hx with e | hx
      · subst e; rw [hd] at hxn; cases hxn
      · exact ⟨x, hx, hxn⟩

/-! ## Listing the authorized plat IDs -/

theorem ListAuthorizedPlatIDs_ok (am : AuthManager) (header : Header) (username : GoString)
    (log : List Call) (rs : List GoString)
    (hsvc : am.ListAuthorizedResources header (listInput username) = Except.ok rs) :
    ListAuthorizedPlatIDs am header username log =
      (parsePlatIDs rs [], log ++ [Call.ListAuthorizedResources header (listInput username)]) := by
  simp only [ListAuthorizedPlatIDs, listInput] at hsvc ⊢
  rw [hsvc]

theorem decodeResourceID_bare (n : Int) (hlo : -(2 ^ 63 : Int) ≤ n) (hhi : n < 2 ^ 63) :
    decodeResourceID (FormatInt n) = some n := by
  rw [decodeResourceID, idSegment_bare _ (HasPrefix_FormatInt n)]
  exact base10Int64_FormatInt n hlo hhi

theorem decodeResourceID_legacy (n : Int) (hlo : -(2 ^ 63 : Int) ≤ n) (hhi : n < 2 ^ 63) :
    decodeResourceID (bytes "plat:" ++ FormatInt n) = some n := by
  rw [decodeResourceID, idSegment_plat, Split, splitLoop_no_sep 58 _ [] (colon_not_mem_FormatInt n)]
  exact base10Int64_FormatInt n hlo hhi

/-- An ID with the legacy prefix and a further `:` decodes from the segment
between the first and the second `:`. -/
theorem decodeResourceID_extra (seg rest : GoString) (hseg : 58 ∉ seg) :
    decodeResourceID (bytes "plat:" ++ (seg ++ 58 :: rest)) = base10Int64 seg := by
  rw [decodeResourceID, idSegment_plat, Split, splitLoop_sep 58 seg rest [] hseg]
  rfl

/-- C1: when the policy service returns, for int64 values `n_1..n_k`, a list
whose i-th string is `"plat:"` followed by the decimal rendering of `n_i` or
the bare rendering of `n_i` (chosen per element), `ListAuthorizedPlatIDs`
succeeds and returns exactly `[n_1, ..., n_k]`, in order, duplicates kept. -/
theorem C1_listing_returns_encoded_ids (am : AuthManager) (header : Header)
    (username : GoString) (log : List Call) (ns : List Int) (rs : List GoString)
    (hrange : ∀ n ∈ ns, -(2 ^ 63 : Int) ≤ n ∧ n < 2 ^ 63)
    (henc : List.Forall₂ (fun n r => r = bytes "plat:" ++ FormatInt n ∨ r = FormatInt n) ns rs)
    (hsvc : am.ListAuthorizedResources header (listInput username) = Except.ok rs) :
    (ListAuthorizedPlatIDs am header username log).1 = (ns, none) := by
  rw [ListAuthorizedPlatIDs_ok am header username log rs hsvc]
  have key : ∀ (ns : List Int) (rs : List GoString),
      (∀ n ∈ ns, -(2 ^ 63 : Int) ≤ n ∧ n < 2 ^ 63) →
      List.Forall₂ (fun n r => r = bytes "plat:" ++ FormatInt n ∨ r = FormatInt n) ns rs →
      (∀ r ∈ rs, decodeResourceID r ≠ none) ∧ rs.filterMap decodeResourceID = ns := by
    intro ns rs hr hf
    induction hf with
    | nil => simp
    | @cons n r ns rs hnr _ ih =>
      have hn := hr n (List.mem_cons_self _ _)
      have hd : decodeResourceID r = some n := by
        rcases hnr with e | e
        · rw [e]; exact decodeResourceID_legacy n hn.1 hn.2
        · rw [e]; exact decodeResourceID_bare n hn.1 hn.2
      obtain ⟨ih1, ih2⟩ := ih (fun m hm => hr m (List.mem_cons_of_mem _ hm))
      refine ⟨?_, ?_⟩
      · intro x hx
        rcases List.mem_cons.mp hx with e | hx
        · rw [e, hd]; simp
        · exact ih1 x hx
      · rw [List.filterMap_cons, hd, ih2]
  obtain ⟨h1, h2⟩ := key ns rs hrange henc
  show parsePlatIDs rs [] = (ns, none)
  rw [parsePlatIDs_all rs [] h1, h2, List.nil_append]

/-- C1 at the listing `["plat:5", "7", "plat:9"]`, which gives `[5, 7, 9]`,
and at `["plat:42", "42"]`, which gives `[42, 42]`. -/
theorem C1_listing_returns_encoded_ids_witness :
    (ListAuthorizedPlatIDs
        (demoManager true [] [] none [bytes "plat:5", bytes "7", bytes "plat:9"])
        demoHeader (bytes "admin") []).1 = ([5, 7, 9], none) ∧
    (ListAuthorizedPlatIDs
        (demoManager true [] [] none [bytes "plat:42", bytes "42"])
        demoHeader (bytes "admin") []).1 = ([42, 42], none) :=
  ⟨C1_listing_returns_encoded_ids _ demoHeader (bytes "admin") [] [5, 7, 9]
      [bytes "plat:5", bytes "7", bytes "plat:9"]
      (by decide)
      (List.Forall₂.cons (Or.inl (by decide))
        (List.Forall₂.cons (Or.inr (by decide))
          (List.Forall₂.cons (Or.inl (by decide)) List.Forall₂.nil)))
      rfl,
   C1_listing_returns_encoded_ids _ demoHeader (bytes "admin") [] [42, 42]
      [bytes "plat:42", bytes "42"]
      (by decide)
      (List.Forall₂.cons (Or.inl (by decide))
        (List.Forall₂.cons (Or.inr (by decide)) List.Forall₂.nil))
      rfl⟩

/-- C2: for every list returned by the policy service, `ListAuthorizedPlatIDs`
returns an error exactly when some element fails to decode to an int64 (the
second `:`-separated segment of a `plat:`-prefixed element, the whole string
otherwise, is not a base-10 int64), and with an error it returns no ID. -/
theorem C2_listing_fails_iff_some_id_malformed (am : AuthManager) (header : Header)
    (username : GoString) (log : List Call) (rs : List GoString)
    (hsvc : am.ListAuthorizedResources header (listInput username) = Except.ok rs) :
    ((ListAuthorizedPlatIDs am header username log).1.2 ≠ none ↔
        ∃ r ∈ rs, base10Int64 (idSegment r) = none) ∧
    ((ListAuthorizedPlatIDs am header username log).1.2 ≠ none →
        (ListAuthorizedPlatIDs am header username log).1.1 = []) := by
  rw [ListAuthorizedPlatIDs_ok am header username log rs hsvc]
  show (((parsePlatIDs rs []).2 ≠ none ↔ ∃ r ∈ rs, decodeResourceID r = none) ∧
    ((parsePlatIDs rs []).2 ≠ none → (parsePlatIDs rs []).1 = []))
  by_cases h : ∃ r ∈ rs, decodeResourceID r = none
  · obtain ⟨e, he⟩ := parsePlatIDs_some_none rs [] h
    rw [he]
    exact ⟨⟨fun _ => h, fun _ => by simp⟩, fun _ => rfl⟩
  · have hall : ∀ r ∈ rs, decodeResourceID r ≠ none := fun r hr hn => h ⟨r, hr, hn⟩
    rw [parsePlatIDs_all rs [] hall]
    exact ⟨⟨fun hne => absurd rfl hne, fun hex => absurd hex h⟩, fun hne => absurd rfl hne⟩

/-- C2 at the listings `["plat:5", "plat:x"]` and `["7", "plat:"]`: each has
an element that does not decode, the call fails and returns no ID. -/
theorem C2_listing_fails_iff_some_id_malformed_witness :
    ((ListAuthorizedPlatIDs (demoManager true [] [] none [bytes "plat:5", bytes "plat:x"])
        demoHeader (bytes "admin") []).1.2 ≠ none ∧
     (ListAuthorizedPlatIDs (demoManager true [] [] none [bytes "plat:5", bytes "plat:x"])
        demoHeader (bytes "admin") []).1.1 = []) ∧
    ((ListAuthorizedPlatIDs (demoManager true [] [] none [bytes "7", bytes "plat:"])
        demoHeader (bytes "admin") []).1.2 ≠ none ∧
     (ListAuthorizedPlatIDs (demoManager true [] [] none [bytes "7", bytes "plat:"])
        demoHeader (bytes "admin") []).1.1 = []) :=
  have hx := C2_listing_fails_iff_some_id_malformed
    (demoManager true [] [] none [bytes "plat:5", bytes "plat:x"]) demoHeader (bytes "admin") []
    [bytes "plat:5", bytes "plat:x"] rfl
  have hempty := C2_listing_fails_iff_some_id_malformed
    (demoManager true [] [] none [bytes "7", bytes "plat:"]) demoHeader (bytes "admin") []
    [bytes "7", bytes "plat:"] rfl
  have ex : ∃ r ∈ [bytes "plat:5", bytes "plat:x"], base10Int64 (idSegment r) = none :=
    ⟨bytes "plat:x", by decide, by decide⟩
  have eempty : ∃ r ∈ [bytes "7", bytes "plat:"], base10Int64 (idSegment r) = none :=
    ⟨bytes "plat:", by decide, by decide⟩
  ⟨⟨hx.1.mpr ex, hx.2 (hx.1.mpr ex)⟩, ⟨hempty.1.mpr eempty, hempty.2 (hempty.1.mpr eempty)⟩⟩

/-- C8, as the claim states it, fails: `"plat:5:6"` starts with `plat:` and
has two `:`, and `ListAuthorizedPlatIDs` returns the ID 5 for it, no error. -/
theorem C8_extra_colon_counterexample :
    HasPrefix (bytes "plat:5:6") (bytes "plat:") = true ∧
    (bytes "plat:5:6").count 58 = 2 ∧
    (ListAuthorizedPlatIDs (demoManager true [] [] none [bytes "plat:5:6"])
        demoHeader (bytes "admin") []).1 = ([5], none) := by
  decide

/-- C8, amended: an ID `"plat:" ++ seg ++ ":" ++ rest`, `seg` without `:`, is
decoded from `seg` alone. The call returns the value of `seg` when `seg` is a
base-10 int64 and fails, returning no ID, when it is not; what follows the
second `:` is not looked at. -/
theorem C8_extra_colon_decodes_second_segment (am : AuthManager) (header : Header)
    (username : GoString) (log : List Call) (seg rest : GoString)
    (hseg : 58 ∉ seg)
    (hsvc : am.ListAuthorizedResources header (listInput username) =
      Except.ok [bytes "plat:" ++ (seg ++ 58 :: rest)]) :
    (∀ v, base10Int64 seg = some v →
        (ListAuthorizedPlatIDs am header username log).1 = ([v], none)) ∧
    (base10Int64 seg = none →
        (ListAuthorizedPlatIDs am header username log).1.1 = [] ∧
        (ListAuthorizedPlatIDs am header username log).1.2 ≠ none) := by
  rw [ListAuthorizedPlatIDs_ok am header username log _ hsvc]
  have hd := decodeResourceID_extra seg rest hseg
  constructor
  · intro v hv
    show parsePlatIDs _ [] = ([v], none)
    rw [parsePlatIDs_cons_some _ [] [] v (hd.trans hv)]
    rfl
  · intro hn
    obtain ⟨e, he⟩ := parsePlatIDs_cons_none _ [] [] (hd.trans hn)
    show (parsePlatIDs _ []).1 = [] ∧ (parsePlatIDs _ []).2 ≠ none
    rw [he]
    exact ⟨rfl, by simp⟩

/-- C8 amended, at `"plat:5:6"` (`seg = "5"`, `rest = "6"`) and at
`"plat:x:6"`. -/
theorem C8_extra_colon_decodes_second_segment_witness :
    (ListAuthorizedPlatIDs (demoManager true [] [] none [bytes "plat:" ++ (bytes "5" ++ 58 :: bytes "6")])
        demoHeader (bytes "admin") []).1 = ([5], none) :=
  (C8_extra_colon_decodes_second_segment
    (demoManager true [] [] none [bytes "plat:" ++ (bytes "5" ++ 58 :: bytes "6")])
    demoHeader (bytes "admin") [] (bytes "5") (bytes "6") (by decide) rfl).1 5 (by decide)

/-! ## Building the resource descriptors -/

theorem makeResources_eq (header : Header) (action : Action) (platModel : Object)
    (plats : List PlatSimplify) :
    ∀ resources, makeResources header action platModel plats resources =
      resources ++ plats.map (fun plat =>
        ({ Basic :=
            { Action := some action
              Type_ := ResourceType.Plat
              Name := plat.BKCloudNameField
              InstanceID := plat.BKCloudIDField }
           SupplierAccount := GetOwnerID header
           BusinessID := 0
           Layers :=
            [{ Type_ := ResourceType.Model
               Action := none
               Name := platModel.ObjectName
               InstanceID := platModel.ID }] } : ResourceAttribute)) := by
  induction plats with
  | nil => intro resources; simp [makeResources]
  | cons plat rest ih =>
    intro resources
    rw [makeResources, ih]
    simp

/-- C5: when the model query returns a non-empty list, `MakeResourcesByPlat`
returns one descriptor per entity, in input order; the i-th has type Plat,
the given action, the tenant of the header, the ID and name of the i-th
entity, and the single parent layer built from the first model returned. -/
theorem C5_descriptors_follow_entities (am : AuthManager) (header : Header) (action : Action)
    (plats : List PlatSimplify) (log : List Call) (platModel : Object) (others : List Object)
    (hmodel : am.collectObjectsByObjectIDs header 0 [ObjectKey.BKInnerObjIDPlat] =
      Except.ok (platModel :: others)) :
    (MakeResourcesByPlat am header action plats log).1 =
      (plats.map (fun plat =>
        ({ Basic :=
            { Action := some action
              Type_ := ResourceType.Plat
              Name := plat.BKCloudNameField
              InstanceID := plat.BKCloudIDField }
           SupplierAccount := GetOwnerID header
           BusinessID := 0
           Layers :=
            [{ Type_ := ResourceType.Model
               Action := none
               Name := platModel.ObjectName
               InstanceID := platModel.ID }] } : ResourceAttribute)), none) ∧
    (MakeResourcesByPlat am header action plats log).1.1.length = plats.length := by
  simp only [MakeResourcesByPlat, hmodel, makeResources_eq, List.nil_append, List.length_map,
    and_self]

/-- C5 at the entities `[{1, "p1"}, {2, "p2"}]` with the model
`{9, "Cloud Area"}`, action `Find` and tenant `acme`. -/
theorem C5_descriptors_follow_entities_witness :
    (MakeResourcesByPlat (demoManager true [] [cloudAreaModel] none []) demoHeader Action.Find
        [plat1, plat2] []).1 =
      ([{ Basic := { Action := some Action.Find, Type_ := ResourceType.Plat,
                     Name := bytes "p1", InstanceID := 1 }
          SupplierAccount := bytes "acme"
          BusinessID := 0
          Layers := [{ Type_ := ResourceType.Model, Action := none,
                       Name := bytes "Cloud Area", InstanceID := 9 }] },
        { Basic := { Action := some Action.Find, Type_ := ResourceType.Plat,
                     Name := bytes "p2", InstanceID := 2 }
          SupplierAccount := bytes "acme"
          BusinessID := 0
          Layers := [{ Type_ := ResourceType.Model, Action := none,
                       Name := bytes "Cloud Area", InstanceID := 9 }] }], none) :=
  (C5_descriptors_follow_entities (demoManager true [] [cloudAreaModel] none []) demoHeader
    Action.Find [plat1, plat2] [] cloudAreaModel [] rfl).1

/-- C6: when the model query returns no model, `MakeResourcesByPlat` fails and
returns no descriptor, whatever the entities; and every descriptor that
`MakeResourcesByPlat` returns has exactly one parent layer. -/
theorem C6_no_model_no_descriptor (am : AuthManager) (header : Header) (action : Action)
    (plats : List PlatSimplify) (log : List Call) :
    (am.collectObjectsByObjectIDs header 0 [ObjectKey.BKInnerObjIDPlat] = Except.ok [] →
      (MakeResourcesByPlat am header action plats log).1 =
        ([], some (GoError.errorf "get plat model failed, not found" []))) ∧
    (∀ r ∈ (MakeResourcesByPlat am header action plats log).1.1, r.Layers.length = 1) := by
  constructor
  · intro h
    simp only [MakeResourcesByPlat, h]
  · intro r hr
    simp only [MakeResourcesByPlat] at hr
    cases hq : am.collectObjectsByObjectIDs header 0 [ObjectKey.BKInnerObjIDPlat] with
    | error e => rw [hq] at hr; simp at hr
    | ok models =>
      rw [hq] at hr
      cases models with
      | nil => simp at hr
      | cons m ms =>
        simp only [makeResources_eq, List.nil_append, List.mem_map] at hr
        obtain ⟨_, _, rfl⟩ := hr
        rfl

/-- C6 with no model in the store: the batch `[plat1, plat2]` fails whole. -/
theorem C6_no_model_no_descriptor_witness :
    (MakeResourcesByPlat (demoManager true [] [] none []) demoHeader Action.Find
        [plat1, plat2] []).1 =
      ([], some (GoError.errorf "get plat model failed, not found" [])) :=
  (C6_no_model_no_descriptor (demoManager true [] [] none []) demoHeader Action.Find
    [plat1, plat2] []).1 rfl

/-! ## Authorizing -/

/-- C4: with the gateway disabled, `AuthorizeByPlat` and `AuthorizeByPlatIDs`
return success for every action and every list of entities or IDs, and the
call log of the collaborators is unchanged. -/
theorem C4_disabled_gateway_allows_without_calls (am : AuthManager) (header : Header)
    (action : Action) (plats : List PlatSimplify) (platIDs : List Int) (log : List Call)
    (hoff : am.Enabled = false) :
    AuthorizeByPlat am header action plats log = (none, log) ∧
    AuthorizeByPlatIDs am header action platIDs log = (none, log) := by
  simp [AuthorizeByPlat, AuthorizeByPlatIDs, hoff]

/-- C4 on a disabled gateway whose policy service would deny. -/
theorem C4_disabled_gateway_allows_without_calls_witness :
    AuthorizeByPlat (demoManager false [rawPlat1] [cloudAreaModel] (some (GoError.external 403)) [])
        demoHeader Action.Delete [plat1] [] = (none, []) ∧
    AuthorizeByPlatIDs (demoManager false [rawPlat1] [cloudAreaModel] (some (GoError.external 403)) [])
        demoHeader Action.Delete [1, 2] [] = (none, []) :=
  C4_disabled_gateway_allows_without_calls _ demoHeader Action.Delete [plat1] [1, 2] [] rfl

theorem collectPlatByIDs_log (am : AuthManager) (header : Header) (platIDs : List Int)
    (log : List Call) :
    (collectPlatByIDs am header platIDs log).2 =
      log ++ [Call.ReadInstance header ObjectKey.BKInnerObjIDPlat
        { field := FieldKey.BKSubAreaField, inValues := IntArrayUnique platIDs }] := by
  simp only [collectPlatByIDs]
  split <;> rfl

/-- The result of `AuthorizeByPlatIDs` on an enabled gateway when the entity load fails. -/
theorem AuthorizeByPlatIDs_load_failed (am : AuthManager) (header : Header) (action : Action)
    (platIDs : List Int) (log : List Call) (hon : am.Enabled = true)
    (plats : List PlatSimplify) (err : GoError) (log1 : List Call)
    (hload : collectPlatByIDs am header platIDs log = ((plats, some err), log1)) :
    AuthorizeByPlatIDs am header action platIDs log =
      (some (GoError.wrap "get plat by id failed, err: %+d" [] err), log1) := by
  simp only [AuthorizeByPlatIDs, hon, hload, Bool.not_true, Bool.false_eq_true, if_false]

/-- The result of `AuthorizeByPlatIDs` on an enabled gateway when the entity load succeeds. -/
theorem AuthorizeByPlatIDs_loaded (am : AuthManager) (header : Header) (action : Action)
    (platIDs : List Int) (log : List Call) (hon : am.Enabled = true)
    (plats : List PlatSimplify) (log1 : List Call)
    (hload : collectPlatByIDs am header platIDs log = ((plats, none), log1)) :
    AuthorizeByPlatIDs am header action platIDs log =
      match am.collectObjectsByObjectIDs header 0 [ObjectKey.BKInnerObjIDPlat] with
      | Except.ok (platModel :: _) =>
        (am.authorize header 0 (makeResources header action platModel plats []),
          log1 ++ [Call.collectObjects header 0 [ObjectKey.BKInnerObjIDPlat],
            Call.authorize header 0 (makeResources header action platModel plats [])])
      | Except.ok [] =>
        (some (GoError.wrap "MakeResourcesByPlat failed, err: %s" []
            (GoError.errorf "get plat model failed, not found" [])),
          log1 ++ [Call.collectObjects header 0 [ObjectKey.BKInnerObjIDPlat]])
      | Except.error e =>
        (some (GoError.wrap "MakeResourcesByPlat failed, err: %s" []
            (GoError.wrap "get plat model failed, err: %+v" [] e)),
          log1 ++ [Call.collectObjects header 0 [ObjectKey.BKInnerObjIDPlat]]) := by
  simp only [AuthorizeByPlatIDs, hon, hload, Bool.not_true, Bool.false_eq_true, if_false,
    AuthorizeByPlat, MakeResourcesByPlat]
  cases am.collectObjectsByObjectIDs header 0 [ObjectKey.BKInnerObjIDPlat] with
  | error e => rfl
  | ok models =>
    cases models with
    | nil => rfl
    | cons m ms => simp

/-- C3: with the gateway enabled `AuthorizeByPlatIDs` is fail-closed. If the
entity load fails (1), or the model query fails or finds no model (2), it
returns an error and the calls it adds to the log are none to the
policy-decision service. Otherwise (3) it returns exactly what the
policy-decision service answers for the built descriptors at scope 0. So (4)
success means the load succeeded, a model was found and the policy-decision
service returned success. -/
theorem C3_authorize_by_ids_fail_closed (am : AuthManager) (header : Header)
    (action : Action) (platIDs : List Int) (log : List Call) (hon : am.Enabled = true) :
    ((collectPlatByIDs am header platIDs log).1.2 ≠ none →
      (AuthorizeByPlatIDs am header action platIDs log).1 ≠ none ∧
      ∃ added, (AuthorizeByPlatIDs am header action platIDs log).2 = log ++ added ∧
        ∀ c ∈ added, c.isPolicy = false) ∧
    ((∀ m ms, am.collectObjectsByObjectIDs header 0 [ObjectKey.BKInnerObjIDPlat] ≠
        Except.ok (m :: ms)) →
      (AuthorizeByPlatIDs am header action platIDs log).1 ≠ none ∧
      ∃ added, (AuthorizeByPlatIDs am header action platIDs log).2 = log ++ added ∧
        ∀ c ∈ added, c.isPolicy = false) ∧
    (∀ m ms, (collectPlatByIDs am header platIDs log).1.2 = none →
      am.collectObjectsByObjectIDs header 0 [ObjectKey.BKInnerObjIDPlat] = Except.ok (m :: ms) →
      (AuthorizeByPlatIDs am header action platIDs log).1 =
        am.authorize header 0
          (makeResources header action m (collectPlatByIDs am header platIDs log).1.1 []) ∧
      (AuthorizeByPlatIDs am header action platIDs log).2 =
        (collectPlatByIDs am header platIDs log).2 ++
          [Call.collectObjects header 0 [ObjectKey.BKInnerObjIDPlat],
           Call.authorize header 0
             (makeResources header action m (collectPlatByIDs am header platIDs log).1.1 [])]) ∧
    ((AuthorizeByPlatIDs am header action platIDs log).1 = none →
      (collectPlatByIDs am header platIDs log).1.2 = none ∧
      ∃ m ms,
        am.collectObjectsByObjectIDs header 0 [ObjectKey.BKInnerObjIDPlat] = Except.ok (m :: ms) ∧
        am.authorize header 0
          (makeResources header action m (collectPlatByIDs am header platIDs log).1.1 []) =
            none) := by
  have hlog := collectPlatByIDs_log am header platIDs log
  cases hcp : collectPlatByIDs am header platIDs log with
  | mk res log1 =>
    rw [hcp] at hlog
    simp only at hlog
    cases res with
    | mk plats e =>
      cases e with
      | some err =>
        rw [AuthorizeByPlatIDs_load_failed am header action platIDs log hon plats err log1 hcp]
        refine ⟨fun _ => ⟨by simp, _, hlog, by simp [Call.isPolicy]⟩,
          fun _ => ⟨by simp, _, hlog, by simp [Call.isPolicy]⟩,
          fun m ms h => by simp at h, fun h => by simp at h⟩
      | none =>
        rw [AuthorizeByPlatIDs_loaded am header action platIDs log hon plats log1 hcp]
        cases hq : am.collectObjectsByObjectIDs header 0 [ObjectKey.BKInnerObjIDPlat] with
        | error e =>
          refine ⟨fun h => by simp at h,
            fun _ => ⟨by simp, _, by simp only [hlog, List.append_assoc]; rfl,
              by simp [Call.isPolicy]⟩,
            fun m ms _ h => by simp at h, fun h => by simp at h⟩
        | ok models =>
          cases models with
          | nil =>
            refine ⟨fun h => by simp at h,
              fun _ => ⟨by simp, _, by simp only [hlog, List.append_assoc]; rfl,
                by simp [Call.isPolicy]⟩,
              fun m ms _ h => by simp at h, fun h => by simp at h⟩
          | cons m ms =>
            refine ⟨fun h => by simp at h, fun h => absurd rfl (h m ms), ?_, ?_⟩
            · intro m2 ms2 _ h
              simp only [Except.ok.injEq, List.cons.injEq] at h
              obtain ⟨rfl, rfl⟩ := h
              exact ⟨rfl, rfl⟩
            · intro h
              exact ⟨rfl, m, ms, rfl, h⟩

/-- C3 on an enabled gateway whose policy service denies: the denial comes
back unchanged, after one load, one model query and one verdict request. -/
theorem C3_authorize_by_ids_fail_closed_witness :
    (AuthorizeByPlatIDs
        (demoManager true [rawPlat1, rawPlat2] [cloudAreaModel] (some (GoError.external 403)) [])
        demoHeader Action.Find [1, 2, 1] []).1 = some (GoError.external 403) :=
  ((C3_authorize_by_ids_fail_closed
    (demoManager true [rawPlat1, rawPlat2] [cloudAreaModel] (some (GoError.external 403)) [])
    demoHeader Action.Find [1, 2, 1] [] rfl).2.2.1 cloudAreaModel [] (by decide) rfl).1

/-! ## Loading entities -/

theorem uniqueFold_nodup (a : List Int) :
    ∀ ret : List Int, ret.Nodup →
      (a.foldl (fun ret x => if x ∈ ret then ret else ret ++ [x]) ret).Nodup := by
  induction a with
  | nil => intro ret h; exact h
  | cons x xs ih =>
    intro ret h
    rw [List.foldl_cons]
    apply ih
    split
    · exact h
    · rename_i hx
      rw [List.nodup_append]
      refine ⟨h, List.nodup_singleton x, ?_⟩
      intro y hy hy2
      rw [List.mem_singleton] at hy2
      exact hx (hy2 ▸ hy)

theorem uniqueFold_mem (a : List Int) (y : Int) :
    ∀ ret : List Int,
      y ∈ a.foldl (fun ret x => if x ∈ ret then ret else ret ++ [x]) ret ↔ y ∈ ret ∨ y ∈ a := by
  induction a with
  | nil => intro ret; simp
  | cons x xs ih =>
    intro ret
    rw [List.foldl_cons, ih]
    split
    · rename_i hx
      constructor
      · rintro (h | h)
        · exact Or.inl h
        · exact Or.inr (List.mem_cons_of_mem _ h)
      · rintro (h | h)
        · exact Or.inl h
        · rcases List.mem_cons.mp h with e | h
          · exact Or.inl (e ▸ hx)
          · exact Or.inr h
    · simp only [List.mem_append, List.mem_singleton, List.mem_cons]
      tauto

theorem uniqueFold_of_nodup (l : List Int) :
    ∀ ret : List Int, (ret ++ l).Nodup →
      l.foldl (fun ret x => if x ∈ ret then ret else ret ++ [x]) ret = ret ++ l := by
  induction l with
  | nil => intro ret _; simp
  | cons x xs ih =>
    intro ret h
    have hx : x ∉ ret := by
      intro hx
      rw [List.nodup_append] at h
      exact h.2.2 hx (List.mem_cons_self _ _)
    rw [List.foldl_cons]
    simp only [hx, if_false]
    rw [ih (ret ++ [x]) (by simpa using h)]
    simp

theorem IntArrayUnique_nodup (a : List Int) : (IntArrayUnique a).Nodup :=
  uniqueFold_nodup a [] List.nodup_nil

theorem IntArrayUnique_mem (a : List Int) (y : Int) : y ∈ IntArrayUnique a ↔ y ∈ a := by
  simp [IntArrayUnique, uniqueFold_mem]

theorem IntArrayUnique_idem (a : List Int) :
    IntArrayUnique (IntArrayUnique a) = IntArrayUnique a := by
  have h := uniqueFold_of_nodup (IntArrayUnique a) [] (by simpa using IntArrayUnique_nodup a)
  simpa [IntArrayUnique] using h

/-- C7 fails on the code: asked for the IDs 1 and 2 over a store that holds
plat 1 only, the core-data service returns one record for two distinct IDs
and `collectPlatByIDs` returns that one entity with no error. -/
theorem C7_missing_record_is_not_reported :
    (IntArrayUnique [1, 2]).length = 2 ∧
    demoRead [rawPlat1] demoHeader ObjectKey.BKInnerObjIDPlat
        { field := FieldKey.BKSubAreaField, inValues := IntArrayUnique [1, 2] } =
      Except.ok [rawPlat1] ∧
    (collectPlatByIDs (demoManager true [rawPlat1] [cloudAreaModel] none []) demoHeader
        [1, 2] []).1 = ([plat1], none) :=
  ⟨by decide, rfl, by decide⟩

/-- C9: `collectPlatByIDs` gives the same entities in the same order, or the
same failure, and makes the same call, on a list of IDs and on its
deduplication; the deduplication has no repeated ID and the same IDs. -/
theorem C9_load_ignores_repeated_ids (am : AuthManager) (header : Header) (platIDs : List Int)
    (log : List Call) :
    collectPlatByIDs am header platIDs log =
      collectPlatByIDs am header (IntArrayUnique platIDs) log ∧
    (IntArrayUnique platIDs).Nodup ∧
    ∀ x, x ∈ IntArrayUnique platIDs ↔ x ∈ platIDs := by
  refine ⟨?_, IntArrayUnique_nodup platIDs, IntArrayUnique_mem platIDs⟩
  simp only [collectPlatByIDs, IntArrayUnique_idem]

/-! ## Registration -/

/-- C10: `Register` with the register IP `0.0.0.0` returns an error and makes
no call to the coordination-service client. With any other register IP the
address check lets the call through: the serialised info is handed to the
client with the path, and the answer of the client is returned. -/
theorem C10_register_rejects_placeholder_address (s : serviceRegister) (path : GoString)
    (c : ServerInfo) (log : List ClientCall) :
    (c.RegisterIP = bytes "0.0.0.0" →
      Register s path c log = (some (GoError.errorf "register ip can not be 0.0.0.0" []), log)) ∧
    (c.RegisterIP ≠ bytes "0.0.0.0" → ∀ js, s.Marshal c = Except.ok js →
      Register s path c log =
        (s.RegisterAndWatchService path js,
          log ++ [ClientCall.RegisterAndWatchService path js])) := by
  constructor
  · intro h
    simp only [Register, h, if_true]
  · intro h js hjs
    simp only [Register, h, if_false, hjs]

/-- C10 at the path `/srv/a`: `0.0.0.0` is rejected with no client call, and
`10.0.0.1` reaches the client with the serialised info. -/
theorem C10_register_rejects_placeholder_address_witness :
    Register demoRegister (bytes "/srv/a") (demoServer (bytes "0.0.0.0")) [] =
      (some (GoError.errorf "register ip can not be 0.0.0.0" []), []) ∧
    Register demoRegister (bytes "/srv/a") (demoServer (bytes "10.0.0.1")) [] =
      (none, [ClientCall.RegisterAndWatchService (bytes "/srv/a") (bytes "10.0.0.1")]) :=
  ⟨(C10_register_rejects_placeholder_address demoRegister (bytes "/srv/a")
      (demoServer (bytes "0.0.0.0")) []).1 rfl,
   (C10_register_rejects_placeholder_address demoRegister (bytes "/srv/a")
      (demoServer (bytes "10.0.0.1")) []).2 (by decide) (bytes "10.0.0.1") rfl⟩

end BkCmdb
